import Mathlib

/-!
Verification development for the astrofriend client-side reconciliation core.

Embedded components:
 - the transcript merge helper deduplicateMessages and the optimistic-buffer
   handling of handleSend (src/astro_frontend/src/lib/api.ts, Chat page);
 - the per-character relationship store: updateFromResponse,
   initFromCharacter, clearScoreChange, resetCharacter,
   getCharacterRelationship, useCharacterRelationship and the persist
   partialize slice (src/unnamed/part_005).

JS Record maps are embedded as functions from String to Option values,
the browser timer queue as an explicit list of scheduled tasks with
integer ids, and 3000 ms as 3 abstract time units.
-/

/-- String constants used by the embedded code and by concrete test inputs. -/
def emptyString : String := ""

def colonString : String := ":"

def roleUser : String := "user"

def roleAssistant : String := "assistant"

def neutralLabel : String := "Neutral"

/-- A chat message, from the ChatMessage interface of
src/astro_frontend/src/types/index.ts: role, content, optional timestamp. -/
structure Message where
  role : String
  content : String
  timestamp : Option String
  deriving DecidableEq, Repr

/-- The signature string computed inside deduplicateMessages:
role, content, and timestamp-or-empty joined with colons, mirroring the
template literal in src/astro_frontend/src/lib/api.ts lines 135 and 140. -/
def signature (m : Message) : String :=
  m.role ++ colonString ++ m.content ++ colonString ++ m.timestamp.getD emptyString

/-- The identity tuple as worded by the spec: (role, content,
timestamp-or-empty). -/
def identityTuple (m : Message) : String × String × String :=
  (m.role, m.content, m.timestamp.getD emptyString)

/-- Joining an identity tuple with colons gives back the signature string. -/
def sigOfTuple (t : String × String × String) : String :=
  t.1 ++ colonString ++ t.2.1 ++ colonString ++ t.2.2

/-- deduplicateMessages from src/astro_frontend/src/lib/api.ts lines 132-145:
collect the signatures of the session history (the JS Set of strings is
embedded as the list of signatures with membership via contains), keep only
the optimistic messages whose signature is not among them, and append the
kept ones to the history. -/
def deduplicateMessages (sessionHistory optimisticMessages : List Message) :
    List Message :=
  let historySignatures := sessionHistory.map signature
  let uniqueOptimisticMessages :=
    optimisticMessages.filter
      (fun msg => !(historySignatures.contains (signature msg)))
  sessionHistory ++ uniqueOptimisticMessages

/-- The merge as the spec words it for claim C2: keep exactly the buffer
elements whose identity tuple does not occur among the identity tuples of
the history. Stated for comparison with deduplicateMessages. -/
def mergeByTuple (sessionHistory optimisticMessages : List Message) :
    List Message :=
  sessionHistory ++
    optimisticMessages.filter
      (fun msg =>
        !((sessionHistory.map identityTuple).contains (identityTuple msg)))

theorem signature_eq_sigOfTuple (m : Message) :
    signature m = sigOfTuple (identityTuple m) := rfl

theorem not_contains_eq_decide (l : List String) (a : String) :
    (!(l.contains a)) = decide (a ∉ l) := by
  by_cases h : a ∈ l <;> simp [h]

/-- The merge in closed form: the history followed by the buffer elements
whose signature does not occur among the history signatures. -/
theorem dedup_filter_form (H B : List Message) :
    deduplicateMessages H B =
      H ++ B.filter (fun b => decide (signature b ∉ H.map signature)) := by
  unfold deduplicateMessages
  simp only []
  congr 1
  apply List.filter_congr
  intro b _
  exact not_contains_eq_decide (H.map signature) (signature b)

/-- Concrete messages showing that distinct identity tuples can share one
signature string, because content may itself contain a colon. -/
def msgColonContent : Message :=
  { role := roleUser, content := "a:b", timestamp := some "c" }

def msgColonTimestamp : Message :=
  { role := roleUser, content := "a", timestamp := some "b:c" }

/-- A concrete message used for duplicate-history counterexamples. -/
def msgHi : Message :=
  { role := roleUser, content := "hi", timestamp := some "t1" }

def msgHello : Message :=
  { role := roleAssistant, content := "hello", timestamp := some "t2" }

/-- Claim C2, counterexample: with history holding the message
(user, "a:b", "c") and buffer holding (user, "a", "b:c"), the code drops the
buffer message although its identity tuple does not occur in the history,
so the merge is not the tuple-based merge the claim describes. -/
theorem dedup_not_tuple_merge :
    deduplicateMessages [msgColonContent] [msgColonTimestamp] =
        [msgColonContent]
      ∧ identityTuple msgColonTimestamp ∉ [msgColonContent].map identityTuple
      ∧ deduplicateMessages [msgColonContent] [msgColonTimestamp] ≠
          mergeByTuple [msgColonContent] [msgColonTimestamp] := by
  refine ⟨by decide, by decide, by decide⟩

/-- Claim C2, amended: identity is the signature string
role:content:timestamp-or-empty (tuples that serialize to the same string
are identified); merge(H, B) is H concatenated with those elements of B
whose signature does not occur in H, a buffer element is kept if and only
if its signature does not occur among the signatures of H, the kept buffer
elements form a subsequence of B (internal order preserved, none invented),
and H is an unchanged prefix of the output (never dropped or reordered). -/
theorem dedup_signature_characterization (H B : List Message) :
    deduplicateMessages H B =
        H ++ B.filter (fun b => decide (signature b ∉ H.map signature))
      ∧ (B.filter (fun b => decide (signature b ∉ H.map signature))).Sublist B :=
  ⟨dedup_filter_form H B, List.filter_sublist B⟩

/-- Claim C3, counterexample: with a history that already holds the same
message twice and an empty buffer, the merged view repeats an identity
tuple, so the claim fails without a duplicate-freeness precondition. -/
theorem dedup_duplicates_survive :
    ¬ ((deduplicateMessages [msgHi, msgHi] []).map identityTuple).Nodup := by
  decide

/-- Claim C3, amended: provided the server history and the local buffer each
contain no duplicate identity tuples themselves, no identity tuple appears
twice in the merged view. -/
theorem dedup_no_duplicate_tuples (H B : List Message)
    (hH : (H.map identityTuple).Nodup) (hB : (B.map identityTuple).Nodup) :
    ((deduplicateMessages H B).map identityTuple).Nodup := by
  rw [dedup_filter_form, List.map_append, List.nodup_append]
  refine ⟨hH, ?_, ?_⟩
  · exact List.Nodup.sublist
      (List.Sublist.map identityTuple (List.filter_sublist B)) hB
  · intro t htH htB
    obtain ⟨h, hhmem, hht⟩ := List.mem_map.1 htH
    obtain ⟨b, hbmem, hbt⟩ := List.mem_map.1 htB
    obtain ⟨hbB, hbpred⟩ := List.mem_filter.1 hbmem
    have hsig : signature b ∉ H.map signature := of_decide_eq_true hbpred
    apply hsig
    have htup : identityTuple b = identityTuple h := by rw [hbt, hht]
    have : signature b = signature h := by
      rw [signature_eq_sigOfTuple, signature_eq_sigOfTuple, htup]
    rw [this]
    exact List.mem_map_of_mem signature hhmem

/-- Witness for the amended claim C3 at a concrete duplicate-free history
and buffer. -/
theorem dedup_no_duplicate_tuples_witness :
    ([msgHi].map identityTuple).Nodup
      ∧ ([msgHello].map identityTuple).Nodup
      ∧ ((deduplicateMessages [msgHi] [msgHello]).map identityTuple).Nodup :=
  ⟨by decide, by decide,
    dedup_no_duplicate_tuples [msgHi] [msgHello] (by decide) (by decide)⟩

/-- Claim C6: merging an already merged transcript as the server history
with an empty buffer returns it unchanged. -/
theorem merge_idempotent (H B : List Message) :
    deduplicateMessages (deduplicateMessages H B) [] =
      deduplicateMessages H B := by
  simp [deduplicateMessages]

/-- An entry of the optimistic local buffer. The ref field embeds JS object
identity: each send creates a fresh object literal, and the rollback in
handleSend removes entries by reference disequality, so a fresh entry
carries a ref not held by any existing entry. -/
structure BufEntry where
  ref : Nat
  msg : Message
  deriving DecidableEq

/-- The optimistic append in handleSend
(src/astro_frontend/src/lib/api.ts line 199): the user message is appended
to the end of the local buffer. -/
def appendOptimistic (buffer : List BufEntry) (e : BufEntry) : List BufEntry :=
  buffer ++ [e]

/-- The failure handler of handleSend
(src/astro_frontend/src/lib/api.ts line 228): the buffer is filtered to the
entries that are not (by reference) the message appended for this send. -/
def rollbackFailedSend (buffer : List BufEntry) (e : BufEntry) :
    List BufEntry :=
  buffer.filter (fun b => b.ref != e.ref)

/-- The messages a buffer contributes to the merge. -/
def bufferMessages (buffer : List BufEntry) : List Message :=
  buffer.map BufEntry.msg

/-- Claim C9: when the send fails, rolling back the entry appended for that
send restores exactly the pre-send buffer (no other entry is removed), so
the merged transcript equals what the reconciler produces without that
entry. The freshness hypothesis says the appended object is a new
reference. -/
theorem send_failure_rollback (buffer : List BufEntry) (e : BufEntry)
    (hfresh : e.ref ∉ buffer.map BufEntry.ref) (H : List Message) :
    rollbackFailedSend (appendOptimistic buffer e) e = buffer
      ∧ deduplicateMessages H
            (bufferMessages (rollbackFailedSend (appendOptimistic buffer e) e))
          = deduplicateMessages H (bufferMessages buffer) := by
  have hroll : rollbackFailedSend (appendOptimistic buffer e) e = buffer := by
    unfold rollbackFailedSend appendOptimistic
    rw [List.filter_append]
    have h1 : buffer.filter (fun b => b.ref != e.ref) = buffer := by
      apply List.filter_eq_self.2
      intro b hb
      have : b.ref ≠ e.ref := by
        intro hcontra
        exact hfresh (hcontra ▸ List.mem_map_of_mem BufEntry.ref hb)
      simpa using this
    have h2 : [e].filter (fun b => b.ref != e.ref) = [] := by simp
    rw [h1, h2, List.append_nil]
  exact ⟨hroll, by rw [hroll]⟩

/-- Witness for claim C9 at a concrete buffer and a fresh entry. -/
theorem send_failure_rollback_witness :
    (BufEntry.mk 1 msgHi).ref ∉ [BufEntry.mk 0 msgHello].map BufEntry.ref
      ∧ (rollbackFailedSend
            (appendOptimistic [BufEntry.mk 0 msgHello] (BufEntry.mk 1 msgHi))
            (BufEntry.mk 1 msgHi) = [BufEntry.mk 0 msgHello]
        ∧ deduplicateMessages []
              (bufferMessages (rollbackFailedSend
                (appendOptimistic [BufEntry.mk 0 msgHello] (BufEntry.mk 1 msgHi))
                (BufEntry.mk 1 msgHi)))
            = deduplicateMessages []
                (bufferMessages [BufEntry.mk 0 msgHello])) :=
  ⟨by decide,
    send_failure_rollback [BufEntry.mk 0 msgHello] (BufEntry.mk 1 msgHi)
      (by decide) []⟩

/-- A relationship record of the store, from the RelationshipData interface
of src/unnamed/part_005: score, status label, and the transient last score
change. -/
structure RelationshipData where
  score : Int
  status : String
  lastScoreChange : Int
  deriving DecidableEq, Repr

/-- DEFAULT_RELATIONSHIP from src/unnamed/part_005 lines 39-43. -/
def DEFAULT_RELATIONSHIP : RelationshipData :=
  { score := 50, status := neutralLabel, lastScoreChange := 0 }

/-- A scheduled setTimeout task: its id (token), the character id whose
indicator it will clear, and the time at which it becomes due (its schedule
time plus the 3-unit window standing for 3000 ms). -/
structure PendingTimer where
  token : Nat
  charId : String
  fireAt : Nat
  deriving DecidableEq, Repr

/-- The store state: the two Record maps of the zustand store in
src/unnamed/part_005 (characters and scoreChangeTimeouts, embedded as
functions from character id to optional value), together with the runtime
timer queue (pending), the next setTimeout id to hand out (browser timeout
ids are positive integers, so the counter starts at 1 and stored ids are
always truthy), and the current time. -/
structure StoreState where
  characters : String → Option RelationshipData
  scoreChangeTimeouts : String → Option Nat
  pending : List PendingTimer
  nextToken : Nat
  now : Nat

/-- Pointwise update of a Record map, embedding the object spread
with a computed key as well as key deletion. -/
def setKey {α : Type} (m : String → Option α) (k : String) (v : Option α) :
    String → Option α :=
  fun q => if q = k then v else m q

/-- clearTimeout applied to an optionally stored timeout id: remove the
timer with that id from the runtime queue; no-op when nothing is stored. -/
def cancelStored (st : StoreState) (stored : Option Nat) : StoreState :=
  match stored with
  | some tok => { st with pending := st.pending.filter (fun t => t.token != tok) }
  | none => st

/-- updateFromResponse from src/unnamed/part_005 lines 60-89: cancel any
existing timeout for the character, overwrite the record with the supplied
score, status and score change, schedule the auto-clear 3 units ahead, and
store the new timeout id. -/
def updateFromResponse (characterId : String) (score : Int) (status : String)
    (scoreChange : Int) (st : StoreState) : StoreState :=
  let st1 := cancelStored st (st.scoreChangeTimeouts characterId)
  let st2 := { st1 with
    characters := setKey st1.characters characterId
      (some { score := score, status := status, lastScoreChange := scoreChange }) }
  let timeoutId := st2.nextToken
  let st3 := { st2 with
    pending := st2.pending ++
      [PendingTimer.mk timeoutId characterId (st2.now + 3)],
    nextToken := timeoutId + 1 }
  { st3 with
    scoreChangeTimeouts := setKey st3.scoreChangeTimeouts characterId
      (some timeoutId) }

/-- initFromCharacter from src/unnamed/part_005 lines 91-106: write the
record, with lastScoreChange zero, only when no record exists or the stored
score or status differs from the supplied values. -/
def initFromCharacter (characterId : String) (score : Int) (status : String)
    (st : StoreState) : StoreState :=
  match st.characters characterId with
  | none =>
      { st with
        characters := setKey st.characters characterId
          (some { score := score, status := status, lastScoreChange := 0 }) }
  | some current =>
      if current.score ≠ score ∨ current.status ≠ status then
        { st with
          characters := setKey st.characters characterId
            (some { score := score, status := status, lastScoreChange := 0 }) }
      else st

/-- getCharacterRelationship from src/unnamed/part_005 lines 108-110: the
stored record or null. -/
def getCharacterRelationship (characterId : String) (st : StoreState) :
    Option RelationshipData :=
  st.characters characterId

/-- useCharacterRelationship from src/unnamed/part_005 lines 180-186: the
stored record, or DEFAULT_RELATIONSHIP when none exists. -/
def readRelationship (characterId : String) (st : StoreState) :
    RelationshipData :=
  (st.characters characterId).getD DEFAULT_RELATIONSHIP

/-- clearScoreChange from src/unnamed/part_005 lines 112-137: cancel the
stored timeout; then, if a record exists, zero its lastScoreChange and drop
the timeout map entry, and otherwise leave the state as it is. -/
def clearScoreChange (characterId : String) (st : StoreState) : StoreState :=
  let st1 := cancelStored st (st.scoreChangeTimeouts characterId)
  match st1.characters characterId with
  | none => st1
  | some character =>
      { st1 with
        characters := setKey st1.characters characterId
          (some { character with lastScoreChange := 0 }),
        scoreChangeTimeouts := setKey st1.scoreChangeTimeouts characterId none }

/-- resetCharacter from src/unnamed/part_005 lines 139-158: cancel the
stored timeout and delete both map entries for the character. -/
def resetCharacter (characterId : String) (st : StoreState) : StoreState :=
  let st1 := cancelStored st (st.scoreChangeTimeouts characterId)
  { st1 with
    characters := setKey st1.characters characterId none,
    scoreChangeTimeouts := setKey st1.scoreChangeTimeouts characterId none }

/-- partialize from src/unnamed/part_005 lines 160-173: the persisted slice
keeps only the characters map, every record with lastScoreChange forced to
zero; timeout ids and scheduled timers are not part of it. -/
def partialize (st : StoreState) : String → Option RelationshipData :=
  fun characterId =>
    (st.characters characterId).map
      (fun data => { data with lastScoreChange := 0 })

/-- Modelled from the spec: the persist middleware (zustand library code,
not among the repository sources) restores the persisted slice into a fresh
store on reload; every non-persisted field takes its initial value, so the
timeout map is empty, no timer is scheduled, and the clock restarts. -/
def rehydrate (persisted : String → Option RelationshipData) : StoreState :=
  { characters := persisted
    scoreChangeTimeouts := fun _ => none
    pending := []
    nextToken := 1
    now := 0 }

/-- The initial store state: both maps empty, nothing scheduled. -/
def initialState : StoreState :=
  { characters := fun _ => none
    scoreChangeTimeouts := fun _ => none
    pending := []
    nextToken := 1
    now := 0 }

theorem setKey_self {α : Type} (m : String → Option α) (k : String)
    (v : Option α) : setKey m k v k = v := by
  simp [setKey]

theorem setKey_ne {α : Type} (m : String → Option α) (k q : String)
    (v : Option α) (h : q ≠ k) : setKey m k v q = m q := by
  simp [setKey, h]

theorem cancelStored_characters (st : StoreState) (stored : Option Nat) :
    (cancelStored st stored).characters = st.characters := by
  cases stored <;> rfl

theorem cancelStored_timeouts (st : StoreState) (stored : Option Nat) :
    (cancelStored st stored).scoreChangeTimeouts = st.scoreChangeTimeouts := by
  cases stored <;> rfl

theorem cancelStored_nextToken (st : StoreState) (stored : Option Nat) :
    (cancelStored st stored).nextToken = st.nextToken := by
  cases stored <;> rfl

theorem cancelStored_now (st : StoreState) (stored : Option Nat) :
    (cancelStored st stored).now = st.now := by
  cases stored <;> rfl

theorem updateFromResponse_characters (id : String) (s : Int) (l : String)
    (d : Int) (st : StoreState) :
    (updateFromResponse id s l d st).characters =
      setKey st.characters id
        (some { score := s, status := l, lastScoreChange := d }) := by
  unfold updateFromResponse
  simp [cancelStored_characters]

theorem updateFromResponse_timeouts (id : String) (s : Int) (l : String)
    (d : Int) (st : StoreState) :
    (updateFromResponse id s l d st).scoreChangeTimeouts =
      setKey st.scoreChangeTimeouts id (some st.nextToken) := by
  unfold updateFromResponse
  simp [cancelStored_timeouts, cancelStored_nextToken]

theorem updateFromResponse_nextToken (id : String) (s : Int) (l : String)
    (d : Int) (st : StoreState) :
    (updateFromResponse id s l d st).nextToken = st.nextToken + 1 := by
  unfold updateFromResponse
  simp [cancelStored_nextToken]

theorem updateFromResponse_now (id : String) (s : Int) (l : String)
    (d : Int) (st : StoreState) :
    (updateFromResponse id s l d st).now = st.now := by
  unfold updateFromResponse
  simp [cancelStored_now]

theorem updateFromResponse_pending (id : String) (s : Int) (l : String)
    (d : Int) (st : StoreState) :
    (updateFromResponse id s l d st).pending =
      (cancelStored st (st.scoreChangeTimeouts id)).pending ++
        [PendingTimer.mk st.nextToken id (st.now + 3)] := by
  unfold updateFromResponse
  simp [cancelStored_nextToken, cancelStored_now]

theorem clearScoreChange_characters (id : String) (st : StoreState) :
    (clearScoreChange id st).characters =
      match st.characters id with
      | none => st.characters
      | some c => setKey st.characters id
          (some { c with lastScoreChange := 0 }) := by
  unfold clearScoreChange
  cases ho : st.scoreChangeTimeouts id <;>
    simp [cancelStored] <;>
    cases hc : st.characters id <;> simp

theorem resetCharacter_characters (id : String) (st : StoreState) :
    (resetCharacter id st).characters = setKey st.characters id none := by
  unfold resetCharacter
  simp [cancelStored_characters]

/-- Claim C5: reading a character id with no stored record yields the
default neutral record; the read is a total function, so no error is
possible. -/
theorem read_default (st : StoreState) (id : String)
    (h : st.characters id = none) :
    readRelationship id st = DEFAULT_RELATIONSHIP
      ∧ readRelationship id st =
          { score := 50, status := neutralLabel, lastScoreChange := 0 } := by
  refine ⟨?_, ?_⟩ <;> simp [readRelationship, h, DEFAULT_RELATIONSHIP]

/-- Witness for claim C5: reading the id "unknown" in the initial store. -/
theorem read_default_witness :
    initialState.characters "unknown" = none
      ∧ (readRelationship "unknown" initialState = DEFAULT_RELATIONSHIP
        ∧ readRelationship "unknown" initialState =
            { score := 50, status := neutralLabel, lastScoreChange := 0 }) :=
  ⟨rfl, read_default initialState "unknown" rfl⟩

/-- The state of the claim C4 scenario: an authoritative update to score 80,
status Smitten, delta 5, followed by initFromCharacter with 70, Curious. -/
def c4State : StoreState :=
  initFromCharacter "c1" 70 "Curious"
    (updateFromResponse "c1" 80 "Smitten" 5 initialState)

/-- Claim C4, counterexample: initFromCharacter with differing values
overwrites the record a prior updateFromResponse stored, so after the
scenario the stored score is 70 and the status Curious, not 80 and
Smitten. -/
theorem init_overwrites_applied_update :
    readRelationship "c1" c4State =
        { score := 70, status := "Curious", lastScoreChange := 0 }
      ∧ (readRelationship "c1" c4State).score ≠ 80
      ∧ (readRelationship "c1" c4State).status ≠ "Smitten" := by
  refine ⟨by decide, by decide, by decide⟩

/-- Claim C4, amended: when a record is stored, initFromCharacter leaves it
unchanged exactly when the supplied score and status equal the stored ones;
when either differs it overwrites the record with the supplied values and a
zero transient delta, so the scenario of the claim ends with 70 and
Curious. -/
theorem initFromCharacter_conditional (st : StoreState) (id : String)
    (s : Int) (l : String) (c : RelationshipData)
    (hc : st.characters id = some c) :
    (initFromCharacter id s l st).characters id =
      if c.score = s ∧ c.status = l then some c
      else some { score := s, status := l, lastScoreChange := 0 } := by
  unfold initFromCharacter
  simp only [hc]
  by_cases hcond : c.score = s ∧ c.status = l
  · obtain ⟨h1, h2⟩ := hcond
    have hne : ¬(c.score ≠ s ∨ c.status ≠ l) := by simp [h1, h2]
    rw [if_neg hne, if_pos ⟨h1, h2⟩]
    exact hc
  · have hdiff : c.score ≠ s ∨ c.status ≠ l := by tauto
    rw [if_pos hdiff, if_neg hcond]
    simp [setKey]

/-- Witness for the amended claim C4 at the concrete scenario state. -/
theorem initFromCharacter_conditional_witness :
    (updateFromResponse "c1" 80 "Smitten" 5 initialState).characters "c1" =
        some { score := 80, status := "Smitten", lastScoreChange := 5 }
      ∧ (initFromCharacter "c1" 70 "Curious"
            (updateFromResponse "c1" 80 "Smitten" 5 initialState)).characters
            "c1" =
          some { score := 70, status := "Curious", lastScoreChange := 0 } := by
  refine ⟨by decide, ?_⟩
  have h := initFromCharacter_conditional
    (updateFromResponse "c1" 80 "Smitten" 5 initialState) "c1" 70 "Curious"
    { score := 80, status := "Smitten", lastScoreChange := 5 } (by decide)
  rw [if_neg (by decide)] at h
  exact h

/-- Claim C8: the persisted slice holds, per character id, exactly the
stored score and status with the transient delta forced to zero, and a
store rehydrated from it reads every character with a zero transient delta,
the persisted score and status, an empty timeout map and no scheduled
expiry task. -/
theorem persistence_projection (st : StoreState) (id : String) :
    partialize st id =
        (st.characters id).map
          (fun d => { score := d.score, status := d.status, lastScoreChange := 0 })
      ∧ (readRelationship id (rehydrate (partialize st))).lastScoreChange = 0
      ∧ (readRelationship id (rehydrate (partialize st))).score =
          (readRelationship id st).score
      ∧ (readRelationship id (rehydrate (partialize st))).status =
          (readRelationship id st).status
      ∧ (rehydrate (partialize st)).scoreChangeTimeouts id = none
      ∧ (rehydrate (partialize st)).pending = [] := by
  cases h : st.characters id <;>
    simp [partialize, rehydrate, readRelationship, h, DEFAULT_RELATIONSHIP]

/-- Claim C10: each store operation applied to character id x leaves the
stored record of every other id y unchanged, and clearScoreChange on an id
with no stored record leaves the whole characters map unchanged. -/
theorem per_key_isolation (st : StoreState) (x y : String) (hxy : y ≠ x)
    (s : Int) (l : String) (d : Int) :
    (updateFromResponse x s l d st).characters y = st.characters y
      ∧ (initFromCharacter x s l st).characters y = st.characters y
      ∧ (clearScoreChange x st).characters y = st.characters y
      ∧ (resetCharacter x st).characters y = st.characters y
      ∧ (st.characters x = none →
          (clearScoreChange x st).characters = st.characters) := by
  refine ⟨?_, ?_, ?_, ?_, ?_⟩
  · rw [updateFromResponse_characters]
    exact setKey_ne st.characters x y _ hxy
  · unfold initFromCharacter
    cases hc : st.characters x with
    | none => simp [setKey_ne st.characters x y _ hxy]
    | some c =>
        by_cases hcond : c.score ≠ s ∨ c.status ≠ l <;>
          simp [hcond, setKey_ne st.characters x y _ hxy]
  · rw [clearScoreChange_characters]
    cases hc : st.characters x
    · simp
    · simp [setKey_ne st.characters x y _ hxy]
  · rw [resetCharacter_characters]
    exact setKey_ne st.characters x y _ hxy
  · intro hnone
    rw [clearScoreChange_characters, hnone]

/-- Witness for claim C10 at two concrete distinct ids. -/
theorem per_key_isolation_witness :
    ("b" : String) ≠ "a"
      ∧ ((updateFromResponse "a" 1 "S" 1 initialState).characters "b" =
            initialState.characters "b"
        ∧ (initFromCharacter "a" 1 "S" initialState).characters "b" =
            initialState.characters "b"
        ∧ (clearScoreChange "a" initialState).characters "b" =
            initialState.characters "b"
        ∧ (resetCharacter "a" initialState).characters "b" =
            initialState.characters "b"
        ∧ (initialState.characters "a" = none →
            (clearScoreChange "a" initialState).characters =
              initialState.characters)) :=
  ⟨by decide, per_key_isolation initialState "a" "b" (by decide) 1 "S" 1⟩

/-- Advance the clock to a given instant; no store field changes. -/
def setNow (t : Nat) (st : StoreState) : StoreState := { st with now := t }

/-- The runtime removing a due timer from its queue just before running the
timer callback. -/
def dequeue (tok : Nat) (st : StoreState) : StoreState :=
  { st with pending := st.pending.filter (fun t => t.token != tok) }

theorem setNow_characters (t : Nat) (st : StoreState) :
    (setNow t st).characters = st.characters := rfl

theorem setNow_timeouts (t : Nat) (st : StoreState) :
    (setNow t st).scoreChangeTimeouts = st.scoreChangeTimeouts := rfl

theorem setNow_pending (t : Nat) (st : StoreState) :
    (setNow t st).pending = st.pending := rfl

theorem setNow_nextToken (t : Nat) (st : StoreState) :
    (setNow t st).nextToken = st.nextToken := rfl

theorem setNow_now (t : Nat) (st : StoreState) : (setNow t st).now = t := rfl

theorem dequeue_characters (tok : Nat) (st : StoreState) :
    (dequeue tok st).characters = st.characters := rfl

theorem dequeue_timeouts (tok : Nat) (st : StoreState) :
    (dequeue tok st).scoreChangeTimeouts = st.scoreChangeTimeouts := rfl

theorem dequeue_nextToken (tok : Nat) (st : StoreState) :
    (dequeue tok st).nextToken = st.nextToken := rfl

theorem dequeue_now (tok : Nat) (st : StoreState) :
    (dequeue tok st).now = st.now := rfl

theorem mem_of_mem_dequeue {tok : Nat} {st : StoreState} {t : PendingTimer}
    (h : t ∈ (dequeue tok st).pending) : t ∈ st.pending :=
  List.mem_of_mem_filter h

theorem mem_dequeue_ne {tok : Nat} {st : StoreState} {t : PendingTimer}
    (h : t ∈ (dequeue tok st).pending) : t.token ≠ tok := by
  simp only [dequeue, List.mem_filter, bne_iff_ne, ne_eq] at h
  exact h.2

theorem mem_of_mem_cancelStored {st : StoreState} {stored : Option Nat}
    {t : PendingTimer} (h : t ∈ (cancelStored st stored).pending) :
    t ∈ st.pending := by
  cases stored with
  | none => exact h
  | some tok => exact List.mem_of_mem_filter h

theorem mem_cancelStored_ne {st : StoreState} {tok : Nat} {t : PendingTimer}
    (h : t ∈ (cancelStored st (some tok)).pending) : t.token ≠ tok := by
  simp only [cancelStored, List.mem_filter, bne_iff_ne, ne_eq] at h
  exact h.2

theorem cancelStored_pending_sublist (st : StoreState) (stored : Option Nat) :
    (cancelStored st stored).pending.Sublist st.pending := by
  cases stored with
  | none => exact List.Sublist.refl _
  | some tok => exact List.filter_sublist st.pending

theorem initFromCharacter_pending (id : String) (s : Int) (l : String)
    (st : StoreState) : (initFromCharacter id s l st).pending = st.pending := by
  unfold initFromCharacter
  split
  · rfl
  · split <;> rfl

theorem initFromCharacter_timeouts (id : String) (s : Int) (l : String)
    (st : StoreState) :
    (initFromCharacter id s l st).scoreChangeTimeouts =
      st.scoreChangeTimeouts := by
  unfold initFromCharacter
  split
  · rfl
  · split <;> rfl

theorem initFromCharacter_nextToken (id : String) (s : Int) (l : String)
    (st : StoreState) :
    (initFromCharacter id s l st).nextToken = st.nextToken := by
  unfold initFromCharacter
  split
  · rfl
  · split <;> rfl

theorem initFromCharacter_now (id : String) (s : Int) (l : String)
    (st : StoreState) : (initFromCharacter id s l st).now = st.now := by
  unfold initFromCharacter
  split
  · rfl
  · split <;> rfl

theorem clearScoreChange_pending (id : String) (st : StoreState) :
    (clearScoreChange id st).pending =
      (cancelStored st (st.scoreChangeTimeouts id)).pending := by
  unfold clearScoreChange
  cases hc : (cancelStored st (st.scoreChangeTimeouts id)).characters id
  · simp [hc]
  · simp [hc]

theorem clearScoreChange_timeouts (id : String) (st : StoreState) :
    (clearScoreChange id st).scoreChangeTimeouts =
      match st.characters id with
      | none => st.scoreChangeTimeouts
      | some _ => setKey st.scoreChangeTimeouts id none := by
  unfold clearScoreChange
  cases hc : (cancelStored st (st.scoreChangeTimeouts id)).characters id with
  | none =>
      rw [cancelStored_characters] at hc
      simp [hc, cancelStored_characters, cancelStored_timeouts]
  | some c =>
      rw [cancelStored_characters] at hc
      simp [hc, cancelStored_characters, cancelStored_timeouts]

theorem clearScoreChange_nextToken (id : String) (st : StoreState) :
    (clearScoreChange id st).nextToken = st.nextToken := by
  unfold clearScoreChange
  cases hc : (cancelStored st (st.scoreChangeTimeouts id)).characters id
  · simp [hc, cancelStored_nextToken]
  · simp [hc, cancelStored_nextToken]

theorem clearScoreChange_now (id : String) (st : StoreState) :
    (clearScoreChange id st).now = st.now := by
  unfold clearScoreChange
  cases hc : (cancelStored st (st.scoreChangeTimeouts id)).characters id
  · simp [hc, cancelStored_now]
  · simp [hc, cancelStored_now]

theorem resetCharacter_pending (id : String) (st : StoreState) :
    (resetCharacter id st).pending =
      (cancelStored st (st.scoreChangeTimeouts id)).pending := rfl

theorem resetCharacter_timeouts (id : String) (st : StoreState) :
    (resetCharacter id st).scoreChangeTimeouts =
      setKey st.scoreChangeTimeouts id none := by
  unfold resetCharacter
  simp [cancelStored_timeouts]

theorem resetCharacter_nextToken (id : String) (st : StoreState) :
    (resetCharacter id st).nextToken = st.nextToken := by
  unfold resetCharacter
  simp [cancelStored_nextToken]

theorem resetCharacter_now (id : String) (st : StoreState) :
    (resetCharacter id st).now = st.now := by
  unfold resetCharacter
  simp [cancelStored_now]

/-- One scheduler turn of the single-threaded event loop: a store operation
invoked by the UI, a due timer firing (the runtime removes it from the
queue and runs the stored callback, which is clearScoreChange for the
character that scheduled it), or the clock advancing. -/
inductive Step : StoreState → StoreState → Prop where
  | update (st : StoreState) (id : String) (s : Int) (l : String) (d : Int) :
      Step st (updateFromResponse id s l d st)
  | initChar (st : StoreState) (id : String) (s : Int) (l : String) :
      Step st (initFromCharacter id s l st)
  | clear (st : StoreState) (id : String) :
      Step st (clearScoreChange id st)
  | reset (st : StoreState) (id : String) :
      Step st (resetCharacter id st)
  | fire (st : StoreState) (tmr : PendingTimer) (hmem : tmr ∈ st.pending)
      (hdue : tmr.fireAt ≤ st.now) :
      Step st (clearScoreChange tmr.charId (dequeue tmr.token st))
  | tick (st : StoreState) :
      Step st (setNow (st.now + 1) st)

/-- States reachable from the fresh store by any sequence of operations and
timer firings. -/
inductive Reachable : StoreState → Prop where
  | start : Reachable initialState
  | step {st st' : StoreState} : Reachable st → Step st st' → Reachable st'

/-- Structural well-formedness of a store state: scheduled timer ids are
pairwise distinct and below the id counter, stored timeout ids are below
the counter, and every scheduled timer is the one recorded in the timeout
map for its character. -/
structure WF (st : StoreState) : Prop where
  tokensNodup : (st.pending.map PendingTimer.token).Nodup
  pendingLt : ∀ t ∈ st.pending, t.token < st.nextToken
  storedLt : ∀ id tok, st.scoreChangeTimeouts id = some tok →
    tok < st.nextToken
  registered : ∀ t ∈ st.pending,
    st.scoreChangeTimeouts t.charId = some t.token

theorem wf_cancelStored (st : StoreState) (stored : Option Nat) (h : WF st) :
    WF (cancelStored st stored) := by
  cases stored with
  | none => exact h
  | some tok =>
      constructor
      · exact List.Nodup.sublist
          (List.Sublist.map PendingTimer.token (List.filter_sublist st.pending))
          h.tokensNodup
      · intro t ht
        exact h.pendingLt t (List.mem_of_mem_filter ht)
      · exact h.storedLt
      · intro t ht
        exact h.registered t (List.mem_of_mem_filter ht)

theorem wf_dequeue (tok : Nat) (st : StoreState) (h : WF st) :
    WF (dequeue tok st) := by
  constructor
  · exact List.Nodup.sublist
      (List.Sublist.map PendingTimer.token (List.filter_sublist st.pending))
      h.tokensNodup
  · intro t ht
    exact h.pendingLt t (List.mem_of_mem_filter ht)
  · exact h.storedLt
  · intro t ht
    exact h.registered t (List.mem_of_mem_filter ht)

theorem wf_setNow (t : Nat) (st : StoreState) (h : WF st) :
    WF (setNow t st) := by
  constructor
  · exact h.tokensNodup
  · exact h.pendingLt
  · exact h.storedLt
  · exact h.registered

theorem wf_updateFromResponse (id : String) (s : Int) (l : String) (d : Int)
    (st : StoreState) (h : WF st) : WF (updateFromResponse id s l d st) := by
  have hc := wf_cancelStored st (st.scoreChangeTimeouts id) h
  constructor
  · rw [updateFromResponse_pending, List.map_append, List.nodup_append]
    refine ⟨hc.tokensNodup, by simp, ?_⟩
    intro a ha hb
    simp only [List.map_cons, List.map_nil, List.mem_singleton] at hb
    obtain ⟨t, htmem, hta⟩ := List.mem_map.1 ha
    have hlt : t.token < st.nextToken := by
      have := hc.pendingLt t htmem
      rwa [cancelStored_nextToken] at this
    rw [hta, hb] at hlt
    exact lt_irrefl _ hlt
  · intro t ht
    rw [updateFromResponse_pending] at ht
    rw [updateFromResponse_nextToken]
    rcases List.mem_append.1 ht with hmem | hmem
    · have := hc.pendingLt t hmem
      rw [cancelStored_nextToken] at this
      omega
    · simp only [List.mem_singleton] at hmem
      rw [hmem]
      exact Nat.lt_succ_self _
  · intro q tok htok
    rw [updateFromResponse_timeouts] at htok
    rw [updateFromResponse_nextToken]
    by_cases hq : q = id
    · rw [hq, setKey_self] at htok
      have := Option.some.inj htok
      omega
    · rw [setKey_ne _ _ _ _ hq] at htok
      have := h.storedLt q tok htok
      omega
  · intro t ht
    rw [updateFromResponse_pending] at ht
    rw [updateFromResponse_timeouts]
    rcases List.mem_append.1 ht with hmem | hmem
    · have hreg : st.scoreChangeTimeouts t.charId = some t.token := by
        have := hc.registered t hmem
        rwa [cancelStored_timeouts] at this
      by_cases hq : t.charId = id
      · exfalso
        rw [hq] at hreg
        rw [hreg] at hmem
        exact mem_cancelStored_ne hmem rfl
      · rw [setKey_ne _ _ _ _ hq]
        exact hreg
    · simp only [List.mem_singleton] at hmem
      rw [hmem]
      simp [setKey_self]

theorem wf_initFromCharacter (id : String) (s : Int) (l : String)
    (st : StoreState) (h : WF st) : WF (initFromCharacter id s l st) := by
  constructor
  · rw [initFromCharacter_pending]
    exact h.tokensNodup
  · intro t ht
    rw [initFromCharacter_pending] at ht
    rw [initFromCharacter_nextToken]
    exact h.pendingLt t ht
  · intro q tok htok
    rw [initFromCharacter_timeouts] at htok
    rw [initFromCharacter_nextToken]
    exact h.storedLt q tok htok
  · intro t ht
    rw [initFromCharacter_pending] at ht
    rw [initFromCharacter_timeouts]
    exact h.registered t ht

theorem wf_clearScoreChange (id : String) (st : StoreState) (h : WF st) :
    WF (clearScoreChange id st) := by
  have hc := wf_cancelStored st (st.scoreChangeTimeouts id) h
  constructor
  · rw [clearScoreChange_pending]
    exact hc.tokensNodup
  · intro t ht
    rw [clearScoreChange_pending] at ht
    rw [clearScoreChange_nextToken]
    have := hc.pendingLt t ht
    rwa [cancelStored_nextToken] at this
  · intro q tok htok
    rw [clearScoreChange_timeouts] at htok
    rw [clearScoreChange_nextToken]
    cases hch : st.characters id with
    | none =>
        simp only [hch] at htok
        exact h.storedLt q tok htok
    | some c =>
        simp only [hch] at htok
        by_cases hq : q = id
        · rw [hq, setKey_self] at htok
          exact absurd htok (by simp)
        · rw [setKey_ne _ _ _ _ hq] at htok
          exact h.storedLt q tok htok
  · intro t ht
    rw [clearScoreChange_pending] at ht
    rw [clearScoreChange_timeouts]
    have hreg : st.scoreChangeTimeouts t.charId = some t.token := by
      have := hc.registered t ht
      rwa [cancelStored_timeouts] at this
    cases hch : st.characters id with
    | none =>
        simp only [hch]
        exact hreg
    | some c =>
        simp only [hch]
        by_cases hq : t.charId = id
        · exfalso
          rw [hq] at hreg
          rw [hreg] at ht
          exact mem_cancelStored_ne ht rfl
        · rw [setKey_ne _ _ _ _ hq]
          exact hreg

theorem wf_resetCharacter (id : String) (st : StoreState) (h : WF st) :
    WF (resetCharacter id st) := by
  have hc := wf_cancelStored st (st.scoreChangeTimeouts id) h
  constructor
  · rw [resetCharacter_pending]
    exact hc.tokensNodup
  · intro t ht
    rw [resetCharacter_pending] at ht
    rw [resetCharacter_nextToken]
    have := hc.pendingLt t ht
    rwa [cancelStored_nextToken] at this
  · intro q tok htok
    rw [resetCharacter_timeouts] at htok
    rw [resetCharacter_nextToken]
    by_cases hq : q = id
    · rw [hq, setKey_self] at htok
      exact absurd htok (by simp)
    · rw [setKey_ne _ _ _ _ hq] at htok
      exact h.storedLt q tok htok
  · intro t ht
    rw [resetCharacter_pending] at ht
    rw [resetCharacter_timeouts]
    have hreg : st.scoreChangeTimeouts t.charId = some t.token := by
      have := hc.registered t ht
      rwa [cancelStored_timeouts] at this
    by_cases hq : t.charId = id
    · exfalso
      rw [hq] at hreg
      rw [hreg] at ht
      exact mem_cancelStored_ne ht rfl
    · rw [setKey_ne _ _ _ _ hq]
      exact hreg

theorem wf_initialState : WF initialState := by
  constructor
  · simp [initialState]
  · intro t ht
    simp [initialState] at ht
  · intro q tok htok
    simp [initialState] at htok
  · intro t ht
    simp [initialState] at ht

theorem wf_step {st st' : StoreState} (h : WF st) (hs : Step st st') :
    WF st' := by
  cases hs with
  | update id s l d => exact wf_updateFromResponse id s l d st h
  | initChar id s l => exact wf_initFromCharacter id s l st h
  | clear id => exact wf_clearScoreChange id st h
  | reset id => exact wf_resetCharacter id st h
  | fire tmr hmem hdue =>
      exact wf_clearScoreChange tmr.charId _ (wf_dequeue tmr.token st h)
  | tick => exact wf_setNow _ st h

theorem wf_reachable (st : StoreState) (h : Reachable st) : WF st := by
  induction h with
  | start => exact wf_initialState
  | step hreach hstep ih => exact wf_step ih hstep

/-- The number of scheduled, not yet fired or cancelled, expiry tasks for a
character id. -/
def liveTimersFor (st : StoreState) (id : String) : Nat :=
  st.pending.countP (fun t => t.charId == id)

theorem countP_le_one_of_registered (f : String → Option Nat) (id : String) :
    ∀ l : List PendingTimer, (l.map PendingTimer.token).Nodup →
      (∀ t ∈ l, f t.charId = some t.token) →
      l.countP (fun t => t.charId == id) ≤ 1 := by
  intro l
  induction l with
  | nil =>
      intro _ _
      simp
  | cons a rest ih =>
      intro hnd hreg
      rw [List.map_cons, List.nodup_cons] at hnd
      obtain ⟨hna, hnrest⟩ := hnd
      rw [List.countP_cons]
      by_cases hid : a.charId = id
      · have hzero : rest.countP (fun t => t.charId == id) = 0 := by
          rw [List.countP_eq_zero]
          intro t htmem
          simp only [beq_iff_eq]
          intro hteq
          have h1 : f id = some a.token := by
            rw [← hid]
            exact hreg a (List.mem_cons_self a rest)
          have h2 : f id = some t.token := by
            rw [← hteq]
            exact hreg t (List.mem_cons_of_mem a htmem)
          have htt : t.token = a.token := by
            rw [h1] at h2
            exact (Option.some.inj h2).symm
          exact hna (htt ▸ List.mem_map_of_mem PendingTimer.token htmem)
        simp [hid, hzero]
      · have hcond : ¬((a.charId == id) = true) := by simp [hid]
        rw [if_neg hcond, Nat.add_zero]
        exact ih hnrest (fun t ht => hreg t (List.mem_cons_of_mem a ht))

/-- Claim C7: in every state reachable by any sequence of store operations
and timer firings from the fresh store, at most one live expiry task exists
per character id. -/
theorem single_live_timer (st : StoreState) (h : Reachable st) (id : String) :
    liveTimersFor st id ≤ 1 := by
  have hwf := wf_reachable st h
  exact countP_le_one_of_registered st.scoreChangeTimeouts id st.pending
    hwf.tokensNodup hwf.registered

/-- Witness for claim C7 at a concrete reachable state with one scheduled
task. -/
theorem single_live_timer_witness :
    Reachable (updateFromResponse "c1" 55 "Interested" 5 initialState)
      ∧ liveTimersFor (updateFromResponse "c1" 55 "Interested" 5 initialState)
          "c1" ≤ 1 := by
  have hr : Reachable (updateFromResponse "c1" 55 "Interested" 5 initialState) :=
    Reachable.step Reachable.start
      (Step.update initialState "c1" 55 "Interested" 5)
  exact ⟨hr, single_live_timer _ hr "c1"⟩

/-- A timeout id that is below the counter and no longer scheduled: such an
id can never be scheduled or fired again. -/
def tokenDead (st : StoreState) (tok : Nat) : Prop :=
  tok < st.nextToken ∧ ∀ t ∈ st.pending, t.token ≠ tok

theorem tokenDead_step {st st' : StoreState} {tok : Nat}
    (hd : tokenDead st tok) (hs : Step st st') : tokenDead st' tok := by
  obtain ⟨hlt, hnm⟩ := hd
  cases hs with
  | update id s l d =>
      constructor
      · rw [updateFromResponse_nextToken]
        omega
      · intro t ht
        rw [updateFromResponse_pending] at ht
        rcases List.mem_append.1 ht with hmem | hmem
        · exact hnm t (mem_of_mem_cancelStored hmem)
        · simp only [List.mem_singleton] at hmem
          rw [hmem]
          show st.nextToken ≠ tok
          omega
  | initChar id s l =>
      constructor
      · rw [initFromCharacter_nextToken]
        exact hlt
      · intro t ht
        rw [initFromCharacter_pending] at ht
        exact hnm t ht
  | clear id =>
      constructor
      · rw [clearScoreChange_nextToken]
        exact hlt
      · intro t ht
        rw [clearScoreChange_pending] at ht
        exact hnm t (mem_of_mem_cancelStored ht)
  | reset id =>
      constructor
      · rw [resetCharacter_nextToken]
        exact hlt
      · intro t ht
        rw [resetCharacter_pending] at ht
        exact hnm t (mem_of_mem_cancelStored ht)
  | fire tmr hmem hdue =>
      constructor
      · rw [clearScoreChange_nextToken, dequeue_nextToken]
        exact hlt
      · intro t ht
        rw [clearScoreChange_pending] at ht
        exact hnm t (mem_of_mem_dequeue (mem_of_mem_cancelStored ht))
  | tick =>
      constructor
      · rw [setNow_nextToken]
        exact hlt
      · intro t ht
        rw [setNow_pending] at ht
        exact hnm t ht

theorem tokenDead_steps {st st' : StoreState} {tok : Nat}
    (hd : tokenDead st tok) (hs : Relation.ReflTransGen Step st st') :
    tokenDead st' tok := by
  induction hs with
  | refl => exact hd
  | tail hsteps hstep ih => exact tokenDead_step ih hstep

/-- Claim C1: two updateFromResponse calls for the same character in quick
succession (the second at time t1, before the first expiry window of 3
units has elapsed). The first update schedules timer tokA, the second
cancels it, stores the second values and schedules timer tokB for t1 + 3.
Then: (1) tokA is no longer scheduled in stB nor in any state reachable
from stB, so the stale timer can never fire and never zeroes the fresh
transientDelta; (2) the timer tokB for this character is scheduled for
t1 + 3 and (3) is due once the clock reaches t1 + 3; (4) firing it (state
stC, exactly the fire step of the scheduler) leaves the read for the
character with score s2, status l2 and transientDelta 0; (5) after the fire
no scheduled task for the character remains and (6) tokB itself is never
scheduled again, so no double fire is possible. -/
theorem transient_race_safety
    (st stA stB stC : StoreState) (id : String)
    (s1 s2 d1 d2 : Int) (l1 l2 : String) (t1 tokA tokB : Nat)
    (hwf : WF st)
    (ht0 : st.now ≤ t1) (ht3 : t1 < st.now + 3)
    (htokA : tokA = st.nextToken)
    (hA : stA = updateFromResponse id s1 l1 d1 st)
    (htokB : tokB = stA.nextToken)
    (hB : stB = updateFromResponse id s2 l2 d2 (setNow t1 stA))
    (hC : stC = clearScoreChange id (dequeue tokB (setNow (t1 + 3) stB))) :
    (∀ st', Relation.ReflTransGen Step stB st' →
        ∀ t ∈ st'.pending, t.token ≠ tokA)
      ∧ PendingTimer.mk tokB id (t1 + 3) ∈ stB.pending
      ∧ (setNow (t1 + 3) stB).now = t1 + 3
      ∧ readRelationship id stC =
          { score := s2, status := l2, lastScoreChange := 0 }
      ∧ (∀ t ∈ stC.pending, t.charId ≠ id)
      ∧ (∀ st', Relation.ReflTransGen Step stC st' →
          ∀ t ∈ st'.pending, t.token ≠ tokB) := by
  subst hA
  subst hB
  subst hC
  subst htokA
  subst htokB
  have hstoA : (setNow t1 (updateFromResponse id s1 l1 d1 st)).scoreChangeTimeouts
      id = some st.nextToken := by
    rw [setNow_timeouts, updateFromResponse_timeouts, setKey_self]
  have hdeadA : tokenDead
      (updateFromResponse id s2 l2 d2
        (setNow t1 (updateFromResponse id s1 l1 d1 st))) st.nextToken := by
    constructor
    · rw [updateFromResponse_nextToken, setNow_nextToken,
        updateFromResponse_nextToken]
      omega
    · intro t ht
      rw [updateFromResponse_pending, hstoA] at ht
      rcases List.mem_append.1 ht with hmem | hmem
      · exact mem_cancelStored_ne hmem
      · simp only [List.mem_singleton] at hmem
        rw [hmem]
        show (setNow t1 (updateFromResponse id s1 l1 d1 st)).nextToken ≠
          st.nextToken
        rw [setNow_nextToken, updateFromResponse_nextToken]
        omega
  have hcharB : (updateFromResponse id s2 l2 d2
      (setNow t1 (updateFromResponse id s1 l1 d1 st))).characters id =
      some { score := s2, status := l2, lastScoreChange := d2 } := by
    rw [updateFromResponse_characters, setKey_self]
  refine ⟨?_, ?_, ?_, ?_, ?_, ?_⟩
  · intro st' hsteps t ht
    exact (tokenDead_steps hdeadA hsteps).2 t ht
  · rw [updateFromResponse_pending]
    exact List.mem_append_right _ (List.mem_singleton.2 rfl)
  · rfl
  · unfold readRelationship
    rw [clearScoreChange_characters]
    have hcharD : (dequeue (updateFromResponse id s1 l1 d1 st).nextToken
        (setNow (t1 + 3)
          (updateFromResponse id s2 l2 d2
            (setNow t1 (updateFromResponse id s1 l1 d1 st))))).characters id =
        some { score := s2, status := l2, lastScoreChange := d2 } := by
      rw [dequeue_characters, setNow_characters]
      exact hcharB
    simp only [hcharD, setKey_self]
    rfl
  · intro t ht
    rw [clearScoreChange_pending] at ht
    have h5 := mem_of_mem_cancelStored ht
    have hneB : t.token ≠ (updateFromResponse id s1 l1 d1 st).nextToken :=
      mem_dequeue_ne h5
    have h6 := mem_of_mem_dequeue h5
    rw [setNow_pending, updateFromResponse_pending, hstoA] at h6
    rcases List.mem_append.1 h6 with hmem | hmem
    · have hneA : t.token ≠ st.nextToken := mem_cancelStored_ne hmem
      have h7 := mem_of_mem_cancelStored hmem
      rw [setNow_pending, updateFromResponse_pending] at h7
      rcases List.mem_append.1 h7 with hmem2 | hmem2
      · have h8 := mem_of_mem_cancelStored hmem2
        intro hq
        have hreg := hwf.registered t h8
        rw [hq] at hreg
        rw [hreg] at hmem2
        exact mem_cancelStored_ne hmem2 rfl
      · exfalso
        simp only [List.mem_singleton] at hmem2
        apply hneA
        rw [hmem2]
    · exfalso
      simp only [List.mem_singleton] at hmem
      apply hneB
      rw [hmem]
      rw [setNow_nextToken]
  · intro st' hsteps t ht
    have hdeadB : tokenDead
        (clearScoreChange id
          (dequeue (updateFromResponse id s1 l1 d1 st).nextToken
            (setNow (t1 + 3)
              (updateFromResponse id s2 l2 d2
                (setNow t1 (updateFromResponse id s1 l1 d1 st))))))
        (updateFromResponse id s1 l1 d1 st).nextToken := by
      constructor
      · simp only [clearScoreChange_nextToken, dequeue_nextToken,
          setNow_nextToken, updateFromResponse_nextToken]
        omega
      · intro t2 ht2
        rw [clearScoreChange_pending] at ht2
        exact mem_dequeue_ne (mem_of_mem_cancelStored ht2)
    exact (tokenDead_steps hdeadB hsteps).2 t ht

/-- Concrete states of the claim C1 scenario: an update at time 0, a second
update at time 1, and the second expiry firing at time 4. -/
def c1StA : StoreState := updateFromResponse "c1" 60 "Warm" 10 initialState

def c1StB : StoreState :=
  updateFromResponse "c1" 55 "Cool" (-5) (setNow 1 c1StA)

def c1StC : StoreState :=
  clearScoreChange "c1" (dequeue 2 (setNow 4 c1StB))

/-- Witness for claim C1 at the concrete scenario. -/
theorem transient_race_safety_witness :
    WF initialState
      ∧ initialState.now ≤ 1
      ∧ (1 : Nat) < initialState.now + 3
      ∧ ((∀ st', Relation.ReflTransGen Step c1StB st' →
            ∀ t ∈ st'.pending, t.token ≠ 1)
        ∧ PendingTimer.mk 2 "c1" 4 ∈ c1StB.pending
        ∧ (setNow 4 c1StB).now = 4
        ∧ readRelationship "c1" c1StC =
            { score := 55, status := "Cool", lastScoreChange := 0 }
        ∧ (∀ t ∈ c1StC.pending, t.charId ≠ "c1")
        ∧ (∀ st', Relation.ReflTransGen Step c1StC st' →
            ∀ t ∈ st'.pending, t.token ≠ 2)) := by
  refine ⟨wf_initialState, by decide, by decide, ?_⟩
  exact transient_race_safety initialState c1StA c1StB c1StC "c1"
    60 55 10 (-5) "Warm" "Cool" 1 1 2 wf_initialState (by decide) (by decide)
    rfl rfl rfl rfl rfl
